import Mathlib

/-!
Shallow embedding of the batching/concatenation pipeline of the phd-archer2
repository (BISICLES post-processing scripts), together with proofs about the
claims of its specification.

Sources embedded:
- src/lib/process_ctrl.py   : filename parsing (get_time_and_iteration), time
  grouping (batch_timesteps), iteration batching (batch_iterations), the final
  write with unlink-on-failure, and the output-exists early return.
- src/lib/process_plot.py   : duplicate-time suppression in batch_time, the
  command-line wiring of main(), and the final write with unlink-on-failure.
- src/lib/process_netcdf.py : the extract_field resource handling, the static
  specs table, and the final write that has no cleanup handler.
- src/lib/bisiclesfile.py   : lazy native-handle acquisition, idempotent
  close(), the static attrs table, and variable-name sanitisation.

Real numbers produced by the Python code (file times, scale factors) are
modelled as rationals; raised exceptions are modelled as Option/Except
failures or as explicit exception values.
-/

namespace PhdArcher

/-! ### Filename parsing, from get_time_and_iteration in process_ctrl.py -/

/-- Numeric value of a digit block, as the Python int()/float() conversion of a
matched regex group. -/
def digitsToInt (cs : List Char) : Int :=
  cs.foldl (fun a c => 10 * a + ((c.toNat : Int) - 48)) 0

/-- True when the character list starts with a dot; used for the closing dot of
the regex pattern. -/
def headIsDot : List Char → Bool
  | '.' :: _ => true
  | _ => false

/-- Attempt of the regex pattern (a dot, twelve digits, a dot) at one position;
on success returns the two six-digit groups. -/
def matchBlockAt : List Char → Option (List Char × List Char)
  | [] => none
  | c :: rest =>
      if c == '.' && (rest.take 12).length == 12 && (rest.take 12).all Char.isDigit
          && headIsDot (rest.drop 12)
      then some ((rest.take 12).take 6, (rest.take 12).drop 6)
      else none

/-- Leftmost search for the pattern over the filename, as re.search does. -/
def searchBlock : List Char → Option (List Char × List Char)
  | [] => none
  | c :: rest =>
      match matchBlockAt (c :: rest) with
      | some r => some r
      | none => searchBlock rest

/-- The scale constant dt_typical = 1 hard-coded in process_ctrl.py; it is an
integer constant. -/
def dt_typical : Int := 1

/-- Embedding of get_time_and_iteration: the time is the first six-digit group
scaled by dt_typical (both factors are integers, so the Python float product
equals the integer product embedded into the rationals), the iteration is the
second group; none models the ValueError (the MalformedNameError of the spec)
raised when the digit block is absent. -/
def get_time_and_iteration (name : String) : Option (ℚ × Int) :=
  match searchBlock name.data with
  | none => none
  | some (t6, i6) => some (((digitsToInt t6 * dt_typical : Int) : ℚ), digitsToInt i6)

/-- True when some position of the list starts a run of twelve consecutive
digit characters; written from the words of the claim, independently of the
parser. -/
def twelveDigitsAt (cs : List Char) : Bool :=
  (cs.take 12).length == 12 && (cs.take 12).all Char.isDigit

/-- True when the list contains twelve consecutive digits anywhere. -/
def hasTwelveDigits : List Char → Bool
  | [] => false
  | c :: rest => twelveDigitsAt (c :: rest) || hasTwelveDigits rest

/-! ### Time grouping, from batch_timesteps in process_ctrl.py -/

/-- Groups from time key to the list of (iteration, filename) pairs, ordered by
first insertion, as a Python defaultdict preserves insertion order. -/
abbrev CtrlGroups := List (ℚ × List (Int × String))

/-- Insertion of one parsed pair into its time group. -/
def addPair : CtrlGroups → ℚ → Int × String → CtrlGroups
  | [], t, p => [(t, [p])]
  | g :: rest, t, p =>
      if g.1 = t then (g.1, g.2 ++ [p]) :: rest
      else g :: addPair rest t p

/-- The grouping loop of batch_timesteps over the file list; none models the
propagated parse error. -/
def groupsLoop : CtrlGroups → List String → Option CtrlGroups
  | gs, [] => some gs
  | gs, f :: fs =>
      match get_time_and_iteration f with
      | none => none
      | some ti => groupsLoop (addPair gs ti.1 (ti.2, f)) fs

/-- Grouping performed by Processor.batch_timesteps. -/
def batch_timesteps_groups (files : List String) : Option CtrlGroups :=
  groupsLoop [] files

/-- All filenames of a grouping, in group-then-list order. -/
def groupFiles (gs : CtrlGroups) : List String :=
  gs.flatMap fun g => g.2.map Prod.snd

/-! ### Iteration axis, from batch_iterations in process_ctrl.py -/

/-- One step of the batch_iterations loop on the iteration axis: the first
file initialises the axis with its own iteration coordinate, every further
file is concatenated onto it. -/
def iterAxisStep (batched : Option (List Int)) (p : Int × String) : Option (List Int) :=
  match batched with
  | none => some [p.1]
  | some axis => some (axis ++ [p.1])

/-- Iteration coordinate axis built by Processor.batch_iterations: batched
starts as None and each (iteration, file) pair of the group is folded in. -/
def batch_iterations_iterAxis (pairs : List (Int × String)) : Option (List Int) :=
  pairs.foldl iterAxisStep none

/-! ### Duplicate-time suppression, from batch_time in process_plot.py -/

/-- Embedding of np.isclose(a, b, atol=0.05) with the numpy default relative
tolerance rtol=1e-5: the comparison numpy evaluates is
abs(a-b) <= atol + rtol*abs(b). -/
def np_isclose (a b : ℚ) : Prop :=
  |a - b| ≤ 1/20 + (1/100000) * |b|

instance (a b : ℚ) : Decidable (np_isclose a b) := by
  unfold np_isclose
  infer_instance

/-- The loop of Processor.batch_time restricted to the time axis: a file is
skipped when the accepted-times list is nonempty and its time is np.isclose to
the last accepted time, otherwise its time is appended. -/
def batch_time_loop : List ℚ → List ℚ → List ℚ
  | times, [] => times
  | times, t :: ts =>
      if times ≠ [] ∧ np_isclose (times.getLastD 0) t
      then batch_time_loop times ts
      else batch_time_loop (times ++ [t]) ts

/-- Time coordinates produced by Processor.batch_time on a list of read times. -/
def batch_time_times (ts : List ℚ) : List ℚ := batch_time_loop [] ts

/-- Duplicate suppression as the claim words it: a plain absolute tolerance of
0.05 against the last accepted time. -/
def batch_time_spec05 : Option ℚ → List ℚ → List ℚ
  | _, [] => []
  | none, t :: ts => t :: batch_time_spec05 (some t) ts
  | some l, t :: ts =>
      if |l - t| ≤ 1/20 then batch_time_spec05 (some l) ts
      else t :: batch_time_spec05 (some t) ts

/-- Duplicate suppression with the tolerance np.isclose actually applies. -/
def batch_time_specClose : Option ℚ → List ℚ → List ℚ
  | _, [] => []
  | none, t :: ts => t :: batch_time_specClose (some t) ts
  | some l, t :: ts =>
      if np_isclose l t then batch_time_specClose (some l) ts
      else t :: batch_time_specClose (some t) ts

/-! ### Native resource traces, from batch_iterations (process_ctrl.py) and
extract_field (process_netcdf.py) -/

/-- Counters over the native resource table of the amrio library: how many
handles are currently open, the largest number ever open at once, and the total
numbers of acquisitions and releases. -/
structure RState where
  openCount : Nat
  maxOpen : Nat
  acquired : Nat
  released : Nat
deriving DecidableEq

/-- amrio.load: acquires one slot in the native resource table. -/
def rload (s : RState) : RState :=
  { openCount := s.openCount + 1
    maxOpen := max s.maxOpen (s.openCount + 1)
    acquired := s.acquired + 1
    released := s.released }

/-- amrio.free: releases one slot. -/
def rfree (s : RState) : RState :=
  { s with openCount := s.openCount - 1, released := s.released + 1 }

/-- Initial resource state: nothing open. -/
def initR : RState := ⟨0, 0, 0, 0⟩

/-- The calls of extract_field that can raise after the handle is acquired:
amrio.queryTime, amrio.queryDomainCorners, amrio.readBox2D, and the lookups in
the specs dict (a KeyError for a variable missing from the table). -/
inductive EFStep
  | qtime
  | corners
  | readbox
  | specsKey
deriving DecidableEq

/-- Resource behaviour of extract_field in process_netcdf.py: amrio.load first,
then the amrio queries and the specs lookups in source order, any of which may
raise; amrio.free is executed only at the end of the success path, so a raise
propagates with the handle still held. -/
def extract_field_res (failAt : Option EFStep) (s0 : RState) : Except RState RState :=
  let s1 := rload s0
  if failAt = some EFStep.qtime then Except.error s1
  else if failAt = some EFStep.corners then Except.error s1
  else if failAt = some EFStep.readbox then Except.error s1
  else if failAt = some EFStep.specsKey then Except.error s1
  else Except.ok (rfree s1)

/-- Resource behaviour of one with BisiclesFile(file) block in
batch_iterations: the handle is acquired lazily by the first read inside the
block and closed by the context manager on both the normal and the raising
exit. -/
def with_bisicles_read (failRead : Bool) (s0 : RState) : Except RState RState :=
  let s1 := rload s0
  if failRead then Except.error (rfree s1) else Except.ok (rfree s1)

/-- Resource behaviour of the batch_iterations loop: one scoped read per file;
a raising read aborts the loop and propagates. -/
def batch_iterations_res : List Bool → RState → Except RState RState
  | [], s => Except.ok s
  | f :: fs, s =>
      match with_bisicles_read f s with
      | Except.error s2 => Except.error s2
      | Except.ok s2 => batch_iterations_res fs s2

/-- Final resource state of a run, whether it returned or raised. -/
def resState : Except RState RState → RState
  | Except.ok s => s
  | Except.error s => s

/-! ### Handle life cycle, from BisiclesFile in bisiclesfile.py -/

/-- Operations on one BisiclesFile: any data or metadata access (all of which
go through the amrID property), or close(). -/
inductive HOp
  | access
  | close
deriving DecidableEq

/-- State of one BisiclesFile: whether the native resource is currently held
(_amrID is not None), with acquisition and free counters. -/
structure HState where
  held : Bool
  acquired : Nat
  frees : Nat
deriving DecidableEq

/-- Freshly constructed BisiclesFile: _amrID is None, nothing acquired. -/
def hinit : HState := ⟨false, 0, 0⟩

/-- State transition of BisiclesFile: the amrID property loads the native
resource only when _amrID is None; close() frees only when the resource is
held, and is a no-op otherwise. -/
def hstep (s : HState) : HOp → HState
  | HOp.access => if s.held then s else ⟨true, s.acquired + 1, s.frees⟩
  | HOp.close => if s.held then ⟨false, s.acquired, s.frees + 1⟩ else s

/-- Run of a sequence of operations on a fresh BisiclesFile. -/
def hrun (ops : List HOp) : HState := ops.foldl hstep hinit

/-! ### Final-write regions, from process_ctrl.py, process_plot.py and
process_netcdf.py -/

/-- The exception classes that the except clauses of the writers distinguish:
Exception subclasses, and KeyboardInterrupt (which is a BaseException but not
an Exception in Python). -/
inductive PyExc
  | exc
  | keyboardInterrupt
deriving DecidableEq

/-- Outcome of the ds.to_netcdf call. -/
inductive WriteOutcome
  | ok
  | raises (e : PyExc)
deriving DecidableEq

/-- State of the filesystem at the output path. -/
structure OutFS where
  outPresent : Bool
deriving DecidableEq

/-- ds.to_netcdf(outfile): creates the output file; on a failing outcome the
partially written file is left on disk and the exception is raised. -/
def to_netcdf_fs (o : WriteOutcome) (_fs : OutFS) : OutFS × Option PyExc :=
  (⟨true⟩, match o with | WriteOutcome.ok => none | WriteOutcome.raises e => some e)

/-- Path.unlink: removes the file at the output path. -/
def unlink_fs (_fs : OutFS) : OutFS := ⟨false⟩

/-- Final write of Processor.process_ctrl: try ds.to_netcdf; except Exception
print the error and unlink; except KeyboardInterrupt unlink. Neither handler
re-raises. -/
def ctrl_write_region (o : WriteOutcome) (fs : OutFS) : OutFS × Option PyExc :=
  let r := to_netcdf_fs o fs
  match r.2 with
  | none => (r.1, none)
  | some PyExc.exc => (unlink_fs r.1, none)
  | some PyExc.keyboardInterrupt => (unlink_fs r.1, none)

/-- Final write of Processor.process_plot: the same try/except structure as
process_ctrl. -/
def plot_write_region (o : WriteOutcome) (fs : OutFS) : OutFS × Option PyExc :=
  let r := to_netcdf_fs o fs
  match r.2 with
  | none => (r.1, none)
  | some PyExc.exc => (unlink_fs r.1, none)
  | some PyExc.keyboardInterrupt => (unlink_fs r.1, none)

/-- Final write of generate_netcdf in process_netcdf.py: a bare
growing_ds.to_netcdf(outnc) call with no surrounding try/except, so a raise
propagates with the partial file left in place. -/
def netcdf_write_region (o : WriteOutcome) (fs : OutFS) : OutFS × Option PyExc :=
  to_netcdf_fs o fs

/-- The three final-persistence sites of the repository. -/
inductive WritePipeline
  | ctrl
  | plot
  | netcdf
deriving DecidableEq

/-- Dispatch of the final write by pipeline. -/
def write_region : WritePipeline → WriteOutcome → OutFS → OutFS × Option PyExc
  | WritePipeline.ctrl => ctrl_write_region
  | WritePipeline.plot => plot_write_region
  | WritePipeline.netcdf => netcdf_write_region

/-! ### Top-level pipeline runs, from process_ctrl and process_plot -/

/-- Observable world of one top-level run: whether a file exists at the output
path, an abstract content version for it, and counters of snapshot reads and
writes performed. -/
structure World where
  outPresent : Bool
  outContent : Nat
  snapshotReads : Nat
  writes : Nat
deriving DecidableEq

/-- Processor.process_ctrl: returns at once when the output file exists;
returns when the glob is empty; otherwise batches (one snapshot read per file)
and runs the final write with unlink-on-failure. -/
def process_ctrl_model (files : List String) (o : WriteOutcome) (w : World) : World :=
  if w.outPresent then w
  else if files.isEmpty then w
  else
    let w1 : World := { w with snapshotReads := w.snapshotReads + files.length }
    let w2 : World :=
      { w1 with writes := w1.writes + 1, outPresent := true, outContent := w1.outContent + 1 }
    match o with
    | WriteOutcome.ok => w2
    | WriteOutcome.raises _ => { w2 with outPresent := false }

/-- Processor.process_plot: the same structure as process_ctrl (existence
check, empty-glob check, batch with one read per file, final write). -/
def process_plot_model (files : List String) (o : WriteOutcome) (w : World) : World :=
  if w.outPresent then w
  else if files.isEmpty then w
  else
    let w1 : World := { w with snapshotReads := w.snapshotReads + files.length }
    let w2 : World :=
      { w1 with writes := w1.writes + 1, outPresent := true, outContent := w1.outContent + 1 }
    match o with
    | WriteOutcome.ok => w2
    | WriteOutcome.raises _ => { w2 with outPresent := false }

/-! ### Variable-name sanitisation, from bisiclesfile.py and process_netcdf.py -/

/-- variable.replace of every slash by the empty string, as Python
str.replace removes each occurrence. -/
def removeSlash (v : String) : String :=
  String.mk (v.data.filter fun c => c != '/')

/-- The static attrs table of BisiclesFile: raw variable key to
(units, long_name). -/
def bisicles_attrs : List (String × String × String) :=
  [ ("thickness", "m", "Ice thickness")
  , ("dThickness/dt", "m·yr⁻¹", "Thickness rate of change")
  , ("xVel", "m·yr⁻¹", "X-velocity")
  , ("yVel", "m·yr⁻¹", "Y-velocity")
  , ("Z_base", "m", "Bed elevation")
  , ("Z_surface", "m", "Surface elevation")
  , ("Cwshelf", "Pa·s·m⁻¹", "Basal friction coefficient")
  , ("muCoef", "unitless", "Viscosity coefficient") ]

/-- self.attrs.get(variable): lookup by raw key. -/
def attrs_get (v : String) : Option (String × String) :=
  (bisicles_attrs.find? fun e => e.1 == v).map fun e => e.2

/-- BisiclesFile.read_dataarray: the native read (amrio.readBox2D) is an oracle
queried with the raw key, and the attrs lookup also uses the raw key. -/
def read_dataarray_model (reader : String → ℚ) (v : String) :
    ℚ × Option (String × String) :=
  (reader v, attrs_get v)

/-- BisiclesFile.read_dataset: the loop filling flat_data, keyed by the
sanitised name while the read itself uses the raw key. -/
def read_dataset_model (reader : String → ℚ) (vars : List String) :
    List (String × ℚ × Option (String × String)) :=
  vars.foldl (fun flat v => flat ++ [(removeSlash v, read_dataarray_model reader v)]) []

/-- One row of the specs dict of process_netcdf.py. -/
structure SpecEntry where
  conversion : ℚ
  prec : ℚ
  dtype : String
  units : String
deriving DecidableEq

/-- The static specs table of process_netcdf.py, with raw variable keys. -/
def netcdf_specs : List (String × SpecEntry) :=
  [ ("thickness", ⟨1, mkRat 1 100, "int32", "m"⟩)
  , ("Z_surface", ⟨1, mkRat 1 100, "int32", "m"⟩)
  , ("Z_base", ⟨1, mkRat 1 100, "int32", "m"⟩)
  , ("Z_bottom", ⟨1, mkRat 1 100, "int32", "m"⟩)
  , ("bTemp", ⟨1, mkRat 1 100, "int32", "K"⟩)
  , ("sTemp", ⟨1, mkRat 1 100, "int32", "K"⟩)
  , ("calvingFlux", ⟨1, mkRat 1 100, "int32", ""⟩)
  , ("calvingRate", ⟨1, mkRat 1 100, "int32", ""⟩)
  , ("dragCoef", ⟨1, mkRat 1 100, "int32", ""⟩)
  , ("viscosityCoef", ⟨1, mkRat 1 100, "int32", ""⟩)
  , ("iceFrac", ⟨1, mkRat 1 100, "int32", ""⟩)
  , ("basal_friction", ⟨1, 1, "int32", ""⟩)
  , ("surfaceThicknessSource", ⟨1000, 1, "int32", "mm/yr"⟩)
  , ("activeSurfaceThicknessSource", ⟨1000, 1, "int32", "mm/yr"⟩)
  , ("basalThicknessSource", ⟨1000, 1, "int32", "mm/yr"⟩)
  , ("activeBasalThicknessSource", ⟨1000, 1, "int32", "mm/yr"⟩)
  , ("tillWaterDepth", ⟨1000, 1, "int32", "mm"⟩)
  , ("waterDepth", ⟨1000, 1, "int32", "mm"⟩)
  , ("mask", ⟨1, 1, "int16", ""⟩)
  , ("yVel", ⟨1, mkRat 1 100, "int32", "m/yr"⟩)
  , ("xVel", ⟨1, mkRat 1 100, "int32", "m/yr"⟩)
  , ("ybVel", ⟨1, mkRat 1 100, "int32", "m/yr"⟩)
  , ("xbVel", ⟨1, mkRat 1 100, "int32", "m/yr"⟩)
  , ("xVelb", ⟨1, mkRat 1 100, "int32", "m/yr"⟩)
  , ("yVelb", ⟨1, mkRat 1 100, "int32", "m/yr"⟩)
  , ("Cwshelf", ⟨1, mkRat 1 100, "int32", ""⟩)
  , ("muCoef", ⟨1, mkRat 1 100, "int32", ""⟩)
  , ("dThickness/dt", ⟨1, mkRat 1 100, "int32", "m/yr"⟩) ]

/-- specs[variable] lookups: by raw key; none models the KeyError. -/
def specs_get (v : String) : Option SpecEntry :=
  (netcdf_specs.find? fun e => e.1 == v).map fun e => e.2

/-- extract_field of process_netcdf.py restricted to key handling: the native
read and the specs lookups use the raw key, the output variable name has the
slash removed, and an unknown key raises (none). The read happens before the
specs lookups, as in the source. -/
def extract_field_model (reader : String → ℚ) (v : String) :
    Option (String × ℚ × String) :=
  let field := reader v
  match specs_get v with
  | none => none
  | some sp => some (removeSlash v, field * sp.conversion, sp.units)

/-! ### Command-line wiring of the plot pipeline, from process_plot.py main -/

/-- Parsed arguments of process_plot.py: positional plot_dir, outfile and
variables, optional lev and order (argparse default 0 for both). -/
structure PlotArgs where
  plot_dir : String
  outfile : String
  varNames : List String
  lev : Int
  order : Int
deriving DecidableEq

/-- Configuration held by a constructed Processor of process_plot.py. -/
structure PlotProcessor where
  varNames : List String
  lev : Int
  order : Int
deriving DecidableEq

/-- The default of the order parameter of Processor.init in process_plot.py. -/
def processor_order_default : Int := 0

/-- main() of process_plot.py constructs the Processor passing only variables
and lev; the parsed order option is not forwarded, so the init default
applies. -/
def plot_main (args : PlotArgs) : PlotProcessor :=
  { varNames := args.varNames, lev := args.lev, order := processor_order_default }

/-- The (variables, lev, order) argument triple that batch_time passes to
read_dataset for each input file. -/
def batch_time_read_calls (p : PlotProcessor) (files : List String) :
    List (List String × Int × Int) :=
  files.map fun _ => (p.varNames, p.lev, p.order)

/-- Invariant of the scoped batching loop: no handle currently open, all
acquisitions released, never more than one open at once. -/
def balancedLe1 (s : RState) : Prop :=
  s.openCount = 0 ∧ s.released = s.acquired ∧ s.maxOpen ≤ 1

/-! ## Helper lemmas -/

theorem addPair_groupFiles (gs : CtrlGroups) (t : ℚ) (p : Int × String) :
    (groupFiles (addPair gs t p)).Perm (groupFiles gs ++ [p.2]) := by
  induction gs with
  | nil => simp [addPair, groupFiles]
  | cons g rest ih =>
      by_cases h : g.1 = t
      · simp only [addPair, if_pos h, groupFiles, List.flatMap_cons, List.map_append]
        rw [List.append_assoc, List.append_assoc]
        exact List.Perm.append_left _ List.perm_append_comm
      · simp only [addPair, if_neg h, groupFiles, List.flatMap_cons]
        rw [List.append_assoc]
        exact List.Perm.append_left _ ih

theorem groupsLoop_perm : ∀ (fs : List String) (gs out : CtrlGroups),
    groupsLoop gs fs = some out → (groupFiles out).Perm (groupFiles gs ++ fs) := by
  intro fs
  induction fs with
  | nil =>
      intro gs out h
      simp only [groupsLoop, Option.some.injEq] at h
      subst h
      simp
  | cons f fs ih =>
      intro gs out h
      simp only [groupsLoop] at h
      cases hp : get_time_and_iteration f with
      | none => rw [hp] at h; cases h
      | some ti =>
          rw [hp] at h
          have h2 := ih _ _ h
          have h3 := (addPair_groupFiles gs ti.1 (ti.2, f)).append_right fs
          refine (h2.trans h3).trans ?_
          simp

theorem addPair_mem (gs : CtrlGroups) (t : ℚ) (p : Int × String) :
    ∀ g ∈ addPair gs t p,
      g ∈ gs ∨ (∃ g0 ∈ gs, g = (g0.1, g0.2 ++ [p])) ∨ g = (t, [p]) := by
  induction gs with
  | nil =>
      intro g hg
      simp only [addPair, List.mem_singleton] at hg
      exact Or.inr (Or.inr hg)
  | cons g0 rest ih =>
      intro g hg
      by_cases h : g0.1 = t
      · simp only [addPair, if_pos h, List.mem_cons] at hg
        rcases hg with rfl | hg
        · exact Or.inr (Or.inl ⟨g0, List.mem_cons_self _ _, rfl⟩)
        · exact Or.inl (List.mem_cons_of_mem _ hg)
      · simp only [addPair, if_neg h, List.mem_cons] at hg
        rcases hg with rfl | hg
        · exact Or.inl (List.mem_cons_self _ _)
        · rcases ih g hg with h1 | ⟨g1, hg1, he⟩ | h3
          · exact Or.inl (List.mem_cons_of_mem _ h1)
          · exact Or.inr (Or.inl ⟨g1, List.mem_cons_of_mem _ hg1, he⟩)
          · exact Or.inr (Or.inr h3)

theorem groupsLoop_sublist : ∀ (fs : List String) (gs out : CtrlGroups) (seen : List String),
    groupsLoop gs fs = some out →
    (∀ g ∈ gs, (g.2.map Prod.snd).Sublist seen) →
    ∀ g ∈ out, (g.2.map Prod.snd).Sublist (seen ++ fs) := by
  intro fs
  induction fs with
  | nil =>
      intro gs out seen h hs
      simp only [groupsLoop, Option.some.injEq] at h
      subst h
      rw [List.append_nil]
      exact hs
  | cons f fs ih =>
      intro gs out seen h hs
      simp only [groupsLoop] at h
      cases hp : get_time_and_iteration f with
      | none => rw [hp] at h; cases h
      | some ti =>
          rw [hp] at h
          have hmid : ∀ g ∈ addPair gs ti.1 (ti.2, f),
              (g.2.map Prod.snd).Sublist (seen ++ [f]) := by
            intro g hg
            rcases addPair_mem gs ti.1 (ti.2, f) g hg with h1 | ⟨g0, hg0, rfl⟩ | rfl
            · exact (hs g h1).trans (List.sublist_append_left seen [f])
            · simp only [List.map_append, List.map_cons, List.map_nil]
              exact List.Sublist.append (hs g0 hg0) (List.Sublist.refl [f])
            · simp only [List.map_cons, List.map_nil]
              exact List.sublist_append_right seen [f]
          intro g hg
          have h4 := ih _ _ (seen ++ [f]) h hmid g hg
          simpa [List.append_assoc] using h4

theorem groupsLoop_total : ∀ (fs : List String) (gs : CtrlGroups),
    (∀ f ∈ fs, (get_time_and_iteration f).isSome = true) →
    (groupsLoop gs fs).isSome = true := by
  intro fs
  induction fs with
  | nil => intro gs _; simp [groupsLoop]
  | cons f fs ih =>
      intro gs hall
      have h1 : (get_time_and_iteration f).isSome = true := hall f (by simp)
      simp only [groupsLoop]
      cases hp : get_time_and_iteration f with
      | none => rw [hp] at h1; cases h1
      | some ti => exact ih _ (fun g hg => hall g (by simp [hg]))

theorem matchBlockAt_hasTwelve {cs : List Char} {r : List Char × List Char}
    (h : matchBlockAt cs = some r) : hasTwelveDigits cs = true := by
  cases cs with
  | nil => simp [matchBlockAt] at h
  | cons c rest =>
      simp only [matchBlockAt] at h
      split at h
      · next hcond =>
          simp only [Bool.and_eq_true, beq_iff_eq] at hcond
          have hlen : (rest.take 12).length = 12 := hcond.1.1.2
          have hdig : (rest.take 12).all Char.isDigit = true := hcond.1.2
          have htw : twelveDigitsAt rest = true := by
            simp [twelveDigitsAt, hlen, hdig]
          have hrlen : 12 ≤ rest.length := by
            rw [List.length_take] at hlen
            omega
          cases rest with
          | nil => simp at hrlen
          | cons r0 rest2 =>
              simp only [hasTwelveDigits, Bool.or_eq_true]
              exact Or.inr (Or.inl htw)
      · exact absurd h (by simp)

theorem searchBlock_hasTwelve : ∀ (cs : List Char) (r : List Char × List Char),
    searchBlock cs = some r → hasTwelveDigits cs = true := by
  intro cs
  induction cs with
  | nil => intro r h; simp [searchBlock] at h
  | cons c rest ih =>
      intro r h
      simp only [searchBlock] at h
      cases hm : matchBlockAt (c :: rest) with
      | some r2 => exact matchBlockAt_hasTwelve hm
      | none =>
          rw [hm] at h
          have h2 := ih r h
          simp [hasTwelveDigits, h2]

theorem iterAxis_foldl (pairs : List (Int × String)) :
    ∀ axis : List Int,
      pairs.foldl iterAxisStep (some axis) = some (axis ++ pairs.map Prod.fst) := by
  induction pairs with
  | nil => intro axis; simp
  | cons p rest ih =>
      intro axis
      simp only [List.foldl_cons, iterAxisStep, ih, List.map_cons]
      simp

theorem batch_time_loop_concat (ts : List ℚ) :
    ∀ (acc : List ℚ) (l : ℚ),
      batch_time_loop (acc ++ [l]) ts = (acc ++ [l]) ++ batch_time_specClose (some l) ts := by
  induction ts with
  | nil => intro acc l; simp [batch_time_loop, batch_time_specClose]
  | cons t ts ih =>
      intro acc l
      have hne : (acc ++ [l]) ≠ [] := by simp
      simp only [batch_time_loop, List.getLastD_concat, batch_time_specClose]
      by_cases hc : np_isclose l t
      · rw [if_pos ⟨hne, hc⟩, if_pos hc]
        exact ih acc l
      · rw [if_neg (fun hand => hc hand.2), if_neg hc]
        rw [ih (acc ++ [l]) t]
        simp

theorem batch_time_times_eq (ts : List ℚ) :
    batch_time_times ts = batch_time_specClose none ts := by
  cases ts with
  | nil => rfl
  | cons t ts =>
      show batch_time_loop [] (t :: ts) = _
      simp only [batch_time_loop]
      rw [if_neg (fun hand => hand.1 rfl)]
      rw [batch_time_loop_concat ts [] t]
      simp [batch_time_specClose]

/-! ## Claims -/

/-- C1 (amended): the plot-variant TimeBatcher skips a file exactly when its
read time is np.isclose to the last accepted time — an absolute tolerance of
0.05 plus the numpy default relative tolerance 1e-5 of the new time — and
otherwise appends the time, which becomes the new last accepted value; for the
input times [100.0, 100.03, 100.2] the resulting time coordinates are exactly
[100.0, 100.2]. -/
theorem claim_C1 :
    (∀ ts : List ℚ, batch_time_times ts = batch_time_specClose none ts) ∧
    batch_time_times [100, 10003/100, 501/5] = [100, 501/5] := by
  refine ⟨batch_time_times_eq, ?_⟩
  have h2 : np_isclose 100 (10003/100) := by
    unfold np_isclose
    rw [abs_of_nonpos (by norm_num), abs_of_nonneg (by norm_num)]
    norm_num
  have h3 : ¬ np_isclose 100 (501/5) := by
    unfold np_isclose
    rw [abs_of_nonpos (by norm_num), abs_of_nonneg (by norm_num)]
    norm_num
  simp [batch_time_times, batch_time_loop, h2, h3]

/-- C1 counterexample: the sorted time list [1999.94, 2000.0] (a realistic
pair of 2-decimal simulation times) refutes the plain-0.05-tolerance reading
of the claim: their distance 0.06 exceeds 0.05, so the claim says 2000.0 is
appended, but np.isclose with its default rtol=1e-5 accepts
0.06 <= 0.05 + 1e-5*2000 and the code skips the file. -/
theorem claim_C1_counterexample :
    List.Pairwise (fun a b : ℚ => a ≤ b) [99997/50, 2000] ∧
    batch_time_times [99997/50, 2000] ≠ batch_time_spec05 none [99997/50, 2000] := by
  constructor
  · simp
    norm_num
  · have hc : np_isclose (99997/50) 2000 := by
      unfold np_isclose
      rw [abs_of_nonpos (by norm_num), abs_of_nonneg (by norm_num)]
      norm_num
    simp [batch_time_times, batch_time_loop, batch_time_spec05, hc]
    rw [abs_of_nonpos (by norm_num)]
    norm_num

/-- C3 (amended): for every non-empty time group, the iteration axis built by
batch_iterations carries exactly the group's IterationKeys in input order with
multiplicity: no deduplication by iteration index takes place. -/
theorem claim_C3 (pairs : List (Int × String)) (h : pairs ≠ []) :
    batch_iterations_iterAxis pairs = some (pairs.map Prod.fst) := by
  cases pairs with
  | nil => exact absurd rfl h
  | cons p rest =>
      show (p :: rest).foldl iterAxisStep none = _
      simp only [List.foldl_cons, iterAxisStep]
      rw [iterAxis_foldl rest [p.1]]
      simp

theorem claim_C3_witness :
    batch_iterations_iterAxis [((1 : Int), "ctrl.a.000015000001.2d.hdf5"),
        (2, "ctrl.a.000015000002.2d.hdf5")]
      = some [1, 2] :=
  claim_C3 [(1, "ctrl.a.000015000001.2d.hdf5"), (2, "ctrl.a.000015000002.2d.hdf5")] (by decide)

/-- C3 counterexample: two distinct files carrying the same iteration index 1
form a non-empty group whose built axis is [1, 1]; the key 1 appears twice on
the axis, so the axis is not deduplicated by iteration index as the claim
states. -/
theorem claim_C3_counterexample :
    batch_iterations_iterAxis [((1 : Int), "ctrl.a.000015000001.2d.hdf5"),
        (1, "ctrl.b.000015000001.2d.hdf5")]
      = some [1, 1] ∧ ¬ ([(1 : Int), 1].Nodup) :=
  ⟨by decide, by decide⟩

/-- C5: FilenameIndexer grouping is total and order-preserving: whenever the
grouping succeeds, the files of all groups are a permutation of the input list
and each group lists its files as an in-order sublist of the input; the
grouping succeeds whenever every filename parses; and on files with encoded
(time, iter) digit pairs (000015,000001), (000015,000002), (000020,000001) and
scale constant 1 it maps TimeKey 15 to iterations [1, 2] and TimeKey 20 to
iterations [1]. -/
theorem claim_C5 :
    (∀ (files : List String) (gs : CtrlGroups), batch_timesteps_groups files = some gs →
        (groupFiles gs).Perm files ∧ ∀ g ∈ gs, (g.2.map Prod.snd).Sublist files) ∧
    (∀ files : List String, (∀ f ∈ files, (get_time_and_iteration f).isSome = true) →
        (batch_timesteps_groups files).isSome = true) ∧
    batch_timesteps_groups
        ["ctrl.run.000015000001.2d.hdf5", "ctrl.run.000015000002.2d.hdf5",
          "ctrl.run.000020000001.2d.hdf5"] =
      some [(15, [(1, "ctrl.run.000015000001.2d.hdf5"), (2, "ctrl.run.000015000002.2d.hdf5")]),
            (20, [(1, "ctrl.run.000020000001.2d.hdf5")])] := by
  refine ⟨?_, ?_, by decide⟩
  · intro files gs h
    constructor
    · simpa [groupFiles] using groupsLoop_perm files [] gs h
    · intro g hg
      simpa using groupsLoop_sublist files [] gs [] h (by simp) g hg
  · intro files hall
    exact groupsLoop_total files [] hall

theorem claim_C5_witness :
    (groupFiles [((15 : ℚ), [((1 : Int), "ctrl.run.000015000001.2d.hdf5"),
          (2, "ctrl.run.000015000002.2d.hdf5")]),
        (20, [(1, "ctrl.run.000020000001.2d.hdf5")])]).Perm
      ["ctrl.run.000015000001.2d.hdf5", "ctrl.run.000015000002.2d.hdf5",
        "ctrl.run.000020000001.2d.hdf5"] ∧
    ∀ g ∈ [((15 : ℚ), [((1 : Int), "ctrl.run.000015000001.2d.hdf5"),
          (2, "ctrl.run.000015000002.2d.hdf5")]),
        (20, [(1, "ctrl.run.000020000001.2d.hdf5")])],
      (g.2.map Prod.snd).Sublist
        ["ctrl.run.000015000001.2d.hdf5", "ctrl.run.000015000002.2d.hdf5",
          "ctrl.run.000020000001.2d.hdf5"] :=
  claim_C5.1
    ["ctrl.run.000015000001.2d.hdf5", "ctrl.run.000015000002.2d.hdf5",
      "ctrl.run.000020000001.2d.hdf5"]
    [(15, [(1, "ctrl.run.000015000001.2d.hdf5"), (2, "ctrl.run.000015000002.2d.hdf5")]),
      (20, [(1, "ctrl.run.000020000001.2d.hdf5")])]
    (by decide)

/-- C6: a filename that does not contain twelve consecutive digits never
parses: get_time_and_iteration returns none, the embedding of the raised
ValueError (the spec's MalformedNameError), and never a (time, iteration)
pair. -/
theorem claim_C6 (s : String) (h : hasTwelveDigits s.data = false) :
    get_time_and_iteration s = none := by
  unfold get_time_and_iteration
  cases hm : searchBlock s.data with
  | none => rfl
  | some r =>
      rw [searchBlock_hasTwelve s.data r hm] at h
      exact Bool.noConfusion h

theorem claim_C6_witness :
    hasTwelveDigits ("ctrl.plot.2d.hdf5" : String).data = false ∧
    get_time_and_iteration "ctrl.plot.2d.hdf5" = none :=
  ⟨by decide, claim_C6 "ctrl.plot.2d.hdf5" (by decide)⟩

/-- C2 counterexample: in generate_netcdf of process_netcdf.py the final
to_netcdf call has no cleanup handler, so when that write raises, the
partially written file is left at the output path; the claim that every
final-persistence failure deletes the partial output is therefore false for
that pipeline. -/
theorem claim_C2_counterexample :
    ¬ (∀ (p : WritePipeline) (e : PyExc) (fs : OutFS),
        (write_region p (WriteOutcome.raises e) fs).1.outPresent = false) := by
  intro hclaim
  have h1 := hclaim WritePipeline.netcdf PyExc.exc ⟨false⟩
  simp [write_region, netcdf_write_region, to_netcdf_fs] at h1

/-- C2 (amended): in the process_ctrl and process_plot pipelines, every
failure raised by the final to_netcdf call — an Exception, or the
KeyboardInterrupt of a user cancellation — triggers unlink of the output, so
no file remains at the output path; generate_netcdf in process_netcdf.py
performs no such cleanup and a failing write leaves the partial file behind. -/
theorem claim_C2 (e : PyExc) (fs : OutFS) :
    (ctrl_write_region (WriteOutcome.raises e) fs).1.outPresent = false ∧
    (plot_write_region (WriteOutcome.raises e) fs).1.outPresent = false := by
  cases e <;> exact ⟨rfl, rfl⟩

/-- C4 helper: one scoped read preserves the balanced resource invariant. -/
theorem with_read_inv (f : Bool) (s : RState) (h : balancedLe1 s) :
    balancedLe1 (resState (with_bisicles_read f s)) := by
  obtain ⟨h0, h1, h2⟩ := h
  cases f <;>
    simp [with_bisicles_read, rload, rfree, resState, balancedLe1, h0, h1, Nat.max_le, h2]

/-- C4 helper: the batching loop preserves the balanced resource invariant on
both the normal and the aborting exit. -/
theorem batch_res_inv : ∀ (fails : List Bool) (s : RState), balancedLe1 s →
    balancedLe1 (resState (batch_iterations_res fails s)) := by
  intro fails
  induction fails with
  | nil => intro s h; exact h
  | cons f fs ih =>
      intro s h
      simp only [batch_iterations_res]
      cases hr : with_bisicles_read f s with
      | error s2 =>
          have h2 := with_read_inv f s h
          rw [hr] at h2
          exact h2
      | ok s2 =>
          have h2 := with_read_inv f s h
          rw [hr] at h2
          exact ih s2 h2

/-- C4 (amended): in the scoped with-statement batching of batch_iterations,
for every pattern of per-file read failures, the run ends (normally or by a
propagating error) with no handle open, never more than one handle open at a
time, and every acquisition released; the success path of extract_field in
process_netcdf.py also ends with no handle open. The original claim fails on
the error exits of extract_field — see the counterexample. -/
theorem claim_C4 :
    (∀ fails : List Bool,
        (resState (batch_iterations_res fails initR)).openCount = 0 ∧
        (resState (batch_iterations_res fails initR)).maxOpen ≤ 1 ∧
        (resState (batch_iterations_res fails initR)).released
          = (resState (batch_iterations_res fails initR)).acquired) ∧
    (resState (extract_field_res none initR)).openCount = 0 := by
  constructor
  · intro fails
    have h := batch_res_inv fails initR ⟨rfl, rfl, by decide⟩
    exact ⟨h.1, h.2.2, h.2.1⟩
  · decide

/-- C4 counterexample: when amrio.readBox2D raises inside extract_field of
process_netcdf.py, the function exits with the handle still open: one
acquisition, zero releases, so the handle is not released on that exit path of
the per-file read. -/
theorem claim_C4_counterexample :
    (resState (extract_field_res (some EFStep.readbox) initR)).openCount = 1 ∧
    (resState (extract_field_res (some EFStep.readbox) initR)).acquired = 1 ∧
    (resState (extract_field_res (some EFStep.readbox) initR)).released = 0 := by
  decide

/-- C7 helper: one handle step preserves the counting invariant that
acquisitions equal frees plus the currently held handle. -/
theorem hstep_inv (s : HState) (op : HOp)
    (h : s.acquired = s.frees + (if s.held then 1 else 0)) :
    (hstep s op).acquired = (hstep s op).frees + (if (hstep s op).held then 1 else 0) := by
  cases op <;> cases hhv : s.held <;> rw [hhv] at h <;> simp [hstep, hhv, h]

/-- C7 helper: the counting invariant holds after any operation sequence. -/
theorem foldl_hstep_inv : ∀ (ops : List HOp) (s : HState),
    s.acquired = s.frees + (if s.held then 1 else 0) →
    (ops.foldl hstep s).acquired
      = (ops.foldl hstep s).frees + (if (ops.foldl hstep s).held then 1 else 0) := by
  intro ops
  induction ops with
  | nil => intro s h; exact h
  | cons op ops ih => intro s h; exact ih (hstep s op) (hstep_inv s op h)

/-- C7 helper: a BisiclesFile with no access performed holds nothing: the
operations do not change a fresh state. -/
theorem foldl_no_access : ∀ (ops : List HOp) (s : HState),
    HOp.access ∉ ops → s.held = false → ops.foldl hstep s = s := by
  intro ops
  induction ops with
  | nil => intro s _ _; rfl
  | cons op ops ih =>
      intro s hno hh
      have hop : op = HOp.close := by
        cases op
        · exact absurd (List.mem_cons_self _ _) hno
        · rfl
      subst hop
      have hfix : hstep s HOp.close = s := by simp [hstep, hh]
      rw [List.foldl_cons, hfix]
      exact ih s (fun hm => hno (List.mem_cons_of_mem _ hm)) hh

/-- C7: on a BisiclesFile, close() is idempotent; over any operation sequence
the native resource is freed at most once per acquisition; after a trailing
close() the resource is never held; and acquisition is lazy: a handle on which
no access was performed acquired nothing and holds nothing. -/
theorem claim_C7 :
    (∀ s : HState, hstep (hstep s HOp.close) HOp.close = hstep s HOp.close) ∧
    (∀ ops : List HOp, (hrun ops).frees ≤ (hrun ops).acquired) ∧
    (∀ ops : List HOp, (hrun (ops ++ [HOp.close])).held = false) ∧
    (∀ ops : List HOp, HOp.access ∉ ops →
        (hrun ops).acquired = 0 ∧ (hrun ops).held = false) := by
  refine ⟨?_, ?_, ?_, ?_⟩
  · intro s
    cases hhv : s.held <;> simp [hstep, hhv]
  · intro ops
    have h := foldl_hstep_inv ops hinit rfl
    rw [hrun]
    cases hv : (ops.foldl hstep hinit).held <;> rw [hv] at h <;> omega
  · intro ops
    rw [hrun, List.foldl_append]
    show (hstep _ HOp.close).held = false
    cases hhv : (ops.foldl hstep hinit).held <;> simp [hstep, hhv]
  · intro ops hno
    rw [hrun, foldl_no_access ops hinit hno rfl]
    exact ⟨rfl, rfl⟩

theorem claim_C7_witness :
    (hrun [HOp.close, HOp.close]).acquired = 0 ∧
    (hrun [HOp.close, HOp.close]).held = false :=
  claim_C7.2.2.2 [HOp.close, HOp.close] (by decide)

/-- C8: re-invoking either top-level pipeline when a file already exists at
the output path is a no-op: the run returns at the existence check, so the
world — including the snapshot-read and write counters and the output
content — is unchanged. -/
theorem claim_C8 (files : List String) (o : WriteOutcome) (w : World)
    (h : w.outPresent = true) :
    process_ctrl_model files o w = w ∧ process_plot_model files o w = w := by
  simp [process_ctrl_model, process_plot_model, h]

theorem claim_C8_witness :
    process_ctrl_model ["ctrl.run.000015000001.2d.hdf5"] WriteOutcome.ok
        ⟨true, 5, 0, 0⟩ = ⟨true, 5, 0, 0⟩ ∧
    process_plot_model ["plot.run.000015000001.2d.hdf5"] WriteOutcome.ok
        ⟨true, 5, 0, 0⟩ = ⟨true, 5, 0, 0⟩ := by
  have h := claim_C8 ["ctrl.run.000015000001.2d.hdf5"] WriteOutcome.ok ⟨true, 5, 0, 0⟩ rfl
  have h2 := claim_C8 ["plot.run.000015000001.2d.hdf5"] WriteOutcome.ok ⟨true, 5, 0, 0⟩ rfl
  exact ⟨h.1, h2.2⟩

/-- C9 helper: the flat_data loop of read_dataset is the pointwise map pairing
each variable's sanitised name with the raw-key read and the raw-key attrs
lookup. -/
theorem read_dataset_foldl : ∀ (vars : List String) (reader : String → ℚ)
    (acc : List (String × ℚ × Option (String × String))),
    vars.foldl (fun flat v => flat ++ [(removeSlash v, read_dataarray_model reader v)]) acc
      = acc ++ vars.map fun v => (removeSlash v, reader v, attrs_get v) := by
  intro vars
  induction vars with
  | nil => intro reader acc; simp
  | cons v vs ih =>
      intro reader acc
      rw [List.foldl_cons, ih]
      simp [read_dataarray_model]

/-- C9: every requested variable appears in the assembled output under its
slash-stripped name while the snapshot reader and the static attrs lookup are
queried with the raw key; concretely, dThickness/dt is emitted as
dThicknessdt, the static attrs and specs tables answer only the raw
slash-carrying key, and extract_field of process_netcdf.py reads and looks up
the raw key while naming its output with the slash removed. -/
theorem claim_C9 :
    (∀ (reader : String → ℚ) (vars : List String),
        read_dataset_model reader vars
          = vars.map fun v => (removeSlash v, reader v, attrs_get v)) ∧
    removeSlash "dThickness/dt" = "dThicknessdt" ∧
    attrs_get "dThickness/dt" = some ("m·yr⁻¹", "Thickness rate of change") ∧
    attrs_get "dThicknessdt" = none ∧
    (∀ reader : String → ℚ,
        extract_field_model reader "dThickness/dt"
          = some ("dThicknessdt", reader "dThickness/dt", "m/yr")) ∧
    specs_get "dThicknessdt" = none := by
  refine ⟨?_, by decide, by decide, by decide, ?_, by decide⟩
  · intro reader vars
    rw [read_dataset_model, read_dataset_foldl]
    simp
  · intro reader
    have hs : specs_get "dThickness/dt" = some ⟨1, mkRat 1 100, "int32", "m/yr"⟩ := by
      decide
    have hr : removeSlash "dThickness/dt" = "dThicknessdt" := by decide
    simp [extract_field_model, hs, hr]

/-- C10: for every invocation of the plot pipeline through its command-line
entry point, the Processor constructed by main carries interpolation order 0
whatever order option was parsed, and hence every per-file read_dataset call
issued by batch_time passes order 0. -/
theorem claim_C10 (args : PlotArgs) (files : List String) :
    (plot_main args).order = 0 ∧
    (batch_time_read_calls (plot_main args) files).all (fun c => c.2.2 == 0) = true := by
  constructor
  · rfl
  · simp [batch_time_read_calls, plot_main, processor_order_default]

end PhdArcher
